import Mathlib

/-!
Formal model of the Stravation repository (Strava → Notion / Google Calendar
sync tool). The definitions below are shallow embeddings of the Python source:

* `stravation/features/strava_to_notion.py` (activity sync, property mapping,
  TRIMP computation, upsert by the "Strava ID" property),
* `stravation/features/routes_to_notion.py` (route sync, incremental
  `_should_process` decision, upsert by "Strava Route ID"),
* `stravation/storage/db.py` (local SQLite cache: checkpoints, seen routes),
* `stravation/services/google_calendar.py` and
  `stravation/features/plan_to_calendar.py` (calendar event upsert),
* `stravation/config.py` (required environment variable validation).

Modelling conventions:
* Python dicts and SQLite tables keyed by a primary key are association lists
  together with an upsert operation `aset` that replaces the value of an
  existing key in place and appends otherwise.
* Python float arithmetic is modelled over `ℝ` (inputs over `ℚ` where the code
  branches on them, so the guards stay decidable); `round(x, 1)` is modelled
  with the mathematical half-up rounding, which agrees with Python everywhere
  except exact ties, and in particular on the concrete inputs used here.
* The SHA-1 digest `_checksum_route` is modelled by the string it hashes
  (the "basis" joined with "|"): the sync logic only relies on the digest
  being a deterministic function of those fields.
* A raised-and-uncaught Python exception is modelled with `Except.error`
  carrying the state at the moment of the raise.
-/

set_option maxHeartbeats 1000000

namespace Stravation

/-- Association-list lookup with decidable key equality (a Python `dict`
read, or a SQLite `SELECT ... WHERE key = ?` on a primary-key column). -/
def alookup {α β : Type} [DecidableEq α] : List (α × β) → α → Option β
  | [], _ => none
  | kv :: rest, k => if kv.1 = k then some kv.2 else alookup rest k

/-- Association-list upsert (a Python `d[k] = v`, or a SQLite
`INSERT ... ON CONFLICT(key) DO UPDATE`): replaces the first entry with the
given key in place, appends when absent. -/
def aset {α β : Type} [DecidableEq α] : List (α × β) → α → β → List (α × β)
  | [], k, v => [(k, v)]
  | kv :: rest, k, v => if kv.1 = k then (k, v) :: rest else kv :: aset rest k v

/-- Batch dict update (Python `props.update(new)` / successive
`props[k] = v` assignments). -/
def dictUpdate {α β : Type} [DecidableEq α] (d new : List (α × β)) : List (α × β) :=
  new.foldl (fun acc kv => aset acc kv.1 kv.2) d

/-- Notion property payload value (the typed JSON shapes built by
`_props_for_db` and friends). -/
inductive PVal where
  | title (s : String)
  | date (s : String)
  | select (s : String)
  | status (s : String)
  | num (x : Option ℚ)
  | richText (s : String)
  | url (s : String)
  | relation (pid : String)
  | multiSelect (names : List String)
deriving DecidableEq

/-- A Notion database schema: property name → property type, as returned by
`_db_schema` (strava_to_notion.py line 209 / routes_to_notion.py line 417). -/
def Schema := List (String × String)

/-- Python `name in schema` membership test. -/
def hasKey (schema : Schema) (k : String) : Bool :=
  (alookup schema k).isSome

/-- The typed activity record built by `_to_notion_activity`
(strava_to_notion.py lines 238-253); `strava_id` is kept as the numeric
Strava activity id (the source stores `str(sa.id)`). -/
structure NotionActivity where
  strava_id : Nat
  name : String
  sport : String
  date_iso : String
  week_iso : String
  year : Int
  distance_km : ℚ
  moving_time_s : Int
  elevation_gain_m : ℚ
deriving DecidableEq

/-- `_props_for_db` (strava_to_notion.py lines 256-306): builds only the
properties that exist in the Notion database schema, with the type-directed
branching of the source. -/
def propsForDb (na : NotionActivity) (schema : Schema) : List (String × PVal) :=
  (if alookup schema "Nom" = some "title" then [("Nom", PVal.title na.name)] else [])
  ++ (if alookup schema "Date" = some "date" then [("Date", PVal.date na.date_iso)] else [])
  ++ (if alookup schema "Sport" = some "select" then [("Sport", PVal.select na.sport)] else [])
  ++ (if alookup schema "Réalisation" = some "status" then
        [("Réalisation", PVal.status "Terminé")]
      else if alookup schema "Réalisation" = some "select" then
        [("Réalisation", PVal.select "Terminé")]
      else [])
  ++ (if alookup schema "Distance (km)" = some "number" then
        [("Distance (km)", PVal.num (some na.distance_km))] else [])
  ++ (if alookup schema "Durée (s)" = some "number" then
        [("Durée (s)", PVal.num (some (na.moving_time_s : ℚ)))] else [])
  ++ (if alookup schema "D+ (m)" = some "number" then
        [("D+ (m)", PVal.num (some na.elevation_gain_m))] else [])
  ++ (if alookup schema "D- (m)" = some "number" then
        [("D- (m)", PVal.num (some 0))] else [])
  ++ (match alookup schema "Strava ID" with
      | some "number" => [("Strava ID", PVal.num (some (na.strava_id : ℚ)))]
      | some "title" => [("Strava ID", PVal.title (toString na.strava_id))]
      | some "rich_text" => [("Strava ID", PVal.richText (toString na.strava_id))]
      | some "text" => [("Strava ID", PVal.richText (toString na.strava_id))]
      | _ => [])
  ++ (match alookup schema "Semaine ISO" with
      | some "rich_text" => [("Semaine ISO", PVal.richText na.week_iso)]
      | some "text" => [("Semaine ISO", PVal.richText na.week_iso)]
      | _ => [])
  ++ (if alookup schema "Année" = some "number" then
        [("Année", PVal.num (some (na.year : ℚ)))] else [])
  ++ (if alookup schema "Lien Strava" = some "url" then
        [("Lien Strava", PVal.url ("https://www.strava.com/activities/"
           ++ toString na.strava_id))] else [])

/-- Python truthiness conversion `float(x) if x else None` used in the
detail-property mapping (a present-but-zero metric is written as null). -/
def pyNumOrNone (o : Option ℚ) : Option ℚ :=
  match o with
  | some q => if q = 0 then none else some q
  | none => none

/-- The per-activity detail metrics fetched by `_get_activity_detail`
(strava_to_notion.py lines 369-376). -/
structure ActivityDetail where
  avg_hr : Option ℚ
  max_hr : Option ℚ
  suffer : Option ℚ
  avg_cad : Option ℚ
  avg_w : Option ℚ
  wavg_w : Option ℚ
  kcal : Option ℚ
deriving DecidableEq

/-- Step 4 of `sync_strava_to_notion` (strava_to_notion.py lines 387-403):
detail-derived properties, each added only when present in the schema. -/
def detailProps (schema : Schema) (d : ActivityDetail) (trimp : Option ℚ) :
    List (String × PVal) :=
  (if hasKey schema "FC moy (bpm)" then
      [("FC moy (bpm)", PVal.num (pyNumOrNone d.avg_hr))] else [])
  ++ (if hasKey schema "FC max (bpm)" then
      [("FC max (bpm)", PVal.num (pyNumOrNone d.max_hr))] else [])
  ++ (if hasKey schema "Charge TRIMP" then
      [("Charge TRIMP", PVal.num trimp)] else [])
  ++ (if hasKey schema "Suffer Score" then
      [("Suffer Score", PVal.num d.suffer)] else [])
  ++ (if hasKey schema "Cadence moy" then
      [("Cadence moy", PVal.num (pyNumOrNone d.avg_cad))] else [])
  ++ (if hasKey schema "Puissance moy (W)" then
      [("Puissance moy (W)", PVal.num (pyNumOrNone d.avg_w))] else [])
  ++ (if hasKey schema "NP / Watts pondérés" then
      [("NP / Watts pondérés", PVal.num (pyNumOrNone d.wavg_w))] else [])
  ++ (if hasKey schema "Calories" then
      [("Calories", PVal.num (pyNumOrNone d.kcal))] else [])

/-- `_filter_existing_props` (strava_to_notion.py lines 309-311): drops the
properties that do not exist in the database schema. -/
def filterExistingProps (props : List (String × PVal)) (schema : Schema) :
    List (String × PVal) :=
  props.filter (fun kv => hasKey schema kv.1)

/-- The complete property payload assembled by `sync_strava_to_notion`
(steps 1-5, strava_to_notion.py lines 365-411): base mapping, then detail
metrics, then the schema-filtered place relations. -/
def buildActivityProps (na : NotionActivity) (schema : Schema)
    (d : ActivityDetail) (trimp : Option ℚ)
    (placeProps : List (String × PVal)) : List (String × PVal) :=
  dictUpdate (dictUpdate (propsForDb na schema) (detailProps schema d trimp))
    (filterExistingProps placeProps schema)

/-- A Notion page in the destination database: a page id and its stored
property values. -/
structure Page where
  pid : Nat
  props : List (String × PVal)
deriving DecidableEq

/-- Whether a page matches the external-id query filter built by
`_filter_by_strava_id` / `_filter_by_route_id`: its id property equals the
queried value. -/
def matchesKey (key : String) (v : PVal) (pg : Page) : Bool :=
  alookup pg.props key = some v

/-- `_find_page_id` / `_find_page_id_by_route_id`: query the database for the
first page whose external-id property equals the given value
(strava_to_notion.py lines 226-235, routes_to_notion.py lines 434-443). -/
def findPageIdBy (key : String) (v : PVal) (db : List Page) : Option Nat :=
  (db.find? (matchesKey key v)).map Page.pid

/-- Number of pages matched by the external-id value. -/
def countMatch (key : String) (v : PVal) (db : List Page) : Nat :=
  db.countP (matchesKey key v)

/-- The upsert performed for one synced item (strava_to_notion.py lines
413-421, routes_to_notion.py lines 757-766): look the page up by the
external-id property when that property exists in the schema, update it in
place when found, create a new page otherwise.  `notion.pages.update` merges
the given properties into the page. -/
def upsertPage (hasIdProp : Bool) (key : String) (v : PVal)
    (props : List (String × PVal)) (freshPid : Nat) (db : List Page) :
    List Page :=
  let pageId := if hasIdProp then findPageIdBy key v db else none
  match pageId with
  | some pid =>
      db.map (fun pg =>
        if pg.pid = pid then { pg with props := dictUpdate pg.props props }
        else pg)
  | none => db ++ [⟨freshPid, props⟩]

/-- One activity as it reaches the main loop of `sync_strava_to_notion`:
its external id string, the (deterministic) full property payload built for
it, and the value the dedup query filter compares against. -/
structure ActItem where
  sid : String
  props : List (String × PVal)
  idVal : PVal
deriving DecidableEq

/-- The local activity-sync state: the `seen_activities` cache table and the
destination database (`nextPid` supplies fresh Notion page ids). -/
structure ActState where
  seenA : List String
  db : List Page
  nextPid : Nat
deriving DecidableEq

/-- `_mark_seen` (strava_to_notion.py lines 59-64): `INSERT OR IGNORE`. -/
def markSeen (l : List String) (s : String) : List String :=
  if l.contains s then l else l ++ [s]

/-- One iteration of the `sync_strava_to_notion` loop (lines 358-427) over
`(state, created_or_updated, already)`: skip when cached and not forced,
otherwise upsert the page and mark the activity as seen. -/
def actStep (hasIdProp force : Bool) (acc : ActState × Nat × Nat)
    (a : ActItem) : ActState × Nat × Nat :=
  let st := acc.1
  if (!force) && st.seenA.contains a.sid then (st, acc.2.1, acc.2.2 + 1)
  else
    ({ seenA := markSeen st.seenA a.sid,
       db := upsertPage hasIdProp "Strava ID" a.idVal a.props st.nextPid st.db,
       nextPid := st.nextPid + 1 }, acc.2.1 + 1, acc.2.2)

/-- `sync_strava_to_notion` (strava_to_notion.py lines 318-430), restricted
to the destination-facing loop: when forced, `_clear_seen` empties the cache
first; returns the final state with the `(created_or_updated, already)`
counters. -/
def syncActivities (hasIdProp force : Bool) (acts : List ActItem)
    (st : ActState) : ActState × Nat × Nat :=
  let st0 := if force then { st with seenA := [] } else st
  acts.foldl (actStep hasIdProp force) (st0, 0, 0)

/-- Variant of the activity-sync loop in which the single-page Notion write
can raise (`fails` tells which external ids raise on write).  The source has
no try/except around `notion.pages.update` / `notion.pages.create`
(strava_to_notion.py lines 413-424), so a raised write aborts the whole run:
`Except.error` carries the state at the moment of the raise. -/
def actStepE (hasIdProp force : Bool) (fails : String → Bool)
    (acc : ActState × Nat × Nat) (a : ActItem) :
    Except (ActState × Nat × Nat) (ActState × Nat × Nat) :=
  let st := acc.1
  if (!force) && st.seenA.contains a.sid then
    Except.ok (st, acc.2.1, acc.2.2 + 1)
  else if fails a.sid then Except.error acc
  else
    Except.ok
      ({ seenA := markSeen st.seenA a.sid,
         db := upsertPage hasIdProp "Strava ID" a.idVal a.props st.nextPid st.db,
         nextPid := st.nextPid + 1 }, acc.2.1 + 1, acc.2.2)

/-- `sync_strava_to_notion` with fallible page writes; the fold over
`Except` short-circuits at the first uncaught exception. -/
def syncActivitiesE (hasIdProp force : Bool) (fails : String → Bool)
    (acts : List ActItem) (st : ActState) :
    Except (ActState × Nat × Nat) (ActState × Nat × Nat) :=
  let st0 := if force then { st with seenA := [] } else st
  acts.foldlM (actStepE hasIdProp force fails) (st0, 0, 0)

/-- One Strava route as yielded by `_iter_strava_routes`
(routes_to_notion.py lines 95-127), with `updated_at` already normalised by
the iterator. -/
structure RouteItem where
  rid : Int
  name : String
  distance : ℚ
  elevation_gain : ℚ
  rtype : Option Int
  sub_type : Option Int
  updated_at : Option String
deriving DecidableEq

/-- Python `str(x)` over an optional field, as used in the checksum basis. -/
def optStr : Option String → String
  | some s => s
  | none => ""

/-- Python `str(x)` over an optional integer field of the checksum basis. -/
def optIntStr : Option Int → String
  | some n => toString n
  | none => ""

/-- `_checksum_route` (routes_to_notion.py lines 513-524).  The SHA-1 digest
is modelled by the joined basis string it hashes: the sync only relies on
the digest being a deterministic function of these fields. -/
def checksumRoute (rt : RouteItem) : String :=
  String.intercalate "|"
    [toString rt.rid, rt.name, toString rt.distance,
     toString rt.elevation_gain, optIntStr rt.rtype, optIntStr rt.sub_type,
     optStr rt.updated_at]

/-- `rt.get("updated_at") or None` (routes_to_notion.py line 699 / 532):
an absent or empty `updated_at` becomes `None`. -/
def normUpdatedAt (rt : RouteItem) : Option String :=
  match rt.updated_at with
  | some "" => none
  | x => x

/-- The `seen_routes` cache snapshot `{route_id: (updated_at, checksum)}`
returned by `get_seen_routes` (storage/db.py lines 67-76). -/
def SeenRoutes := List (Int × Option String × Option String)

/-- `_should_process` (routes_to_notion.py lines 526-538): a route is
processed when it is unknown to the cache, or its (truthy) `updated_at`
differs from the cached one, or its checksum differs from the cached one. -/
def shouldProcess (rt : RouteItem) (seen : SeenRoutes) : Bool :=
  match alookup seen rt.rid with
  | none => true
  | some (prevU, prevC) =>
      (match normUpdatedAt rt with
       | some u => decide (some u ≠ prevU)
       | none => false)
      || decide (some (checksumRoute rt) ≠ prevC)

/-- The local route-sync state: the `seen_routes` cache table and the
destination database. -/
structure RouteState where
  seenR : SeenRoutes
  db : List Page
  nextPid : Nat

/-- Accumulator of one `sync_strava_routes_to_notion` run: final state, the
`(created_or_updated, skipped)` counters, the ids of routes whose page write
succeeded, and the ids whose page write failed (each surfaced as a console
message by the `except` branch at routes_to_notion.py lines 772-773). -/
structure RouteRun where
  st : RouteState
  created : Nat
  skipped : Nat
  writtenIds : List Int
  errors : List Int

/-- One iteration of the `sync_strava_routes_to_notion` loop
(routes_to_notion.py lines 697-775).  The incremental decision uses `seen0`,
the cache snapshot taken before the loop (line 695).  The page write is
inside try/except: on failure the route is not counted, not marked seen, and
the loop continues; on success `mark_route_seen` records
`(updated_at, checksum)`. -/
def routeStep (hasIdProp force : Bool) (seen0 : SeenRoutes)
    (mkProps : RouteItem → List (String × PVal)) (idVal : RouteItem → PVal)
    (fails : Int → Bool) (acc : RouteRun) (rt : RouteItem) : RouteRun :=
  if (!force) && !(shouldProcess rt seen0) then
    { acc with skipped := acc.skipped + 1 }
  else if fails rt.rid then
    { acc with errors := acc.errors ++ [rt.rid] }
  else
    { st := { seenR := aset acc.st.seenR rt.rid
                 (normUpdatedAt rt, some (checksumRoute rt)),
              db := upsertPage hasIdProp "Strava Route ID" (idVal rt)
                 (mkProps rt) acc.st.nextPid acc.st.db,
              nextPid := acc.st.nextPid + 1 },
      created := acc.created + 1,
      skipped := acc.skipped,
      writtenIds := acc.writtenIds ++ [rt.rid],
      errors := acc.errors }

/-- `sync_strava_routes_to_notion` (routes_to_notion.py lines 671-777),
restricted to the destination-facing loop: snapshot the seen-routes cache,
then fold the per-route step over the remote listing. -/
def syncRoutes (hasIdProp force : Bool)
    (mkProps : RouteItem → List (String × PVal)) (idVal : RouteItem → PVal)
    (fails : Int → Bool) (routes : List RouteItem) (st : RouteState) :
    RouteRun :=
  routes.foldl (routeStep hasIdProp force st.seenR mkProps idVal fails)
    ⟨st, 0, 0, [], []⟩

/-- A Google Calendar event, restricted to the fields the upsert logic
reads: id, summary, start/end times (in minutes), and the
`extendedProperties.private.notion_page_id` key. -/
structure GEvent where
  eid : Nat
  summary : String
  startMin : Int
  endMin : Int
  notionPageId : Option String
deriving DecidableEq

/-- The request body assembled by `push_sport_event`
(google_calendar.py lines 361-387), restricted to the fields the upsert
logic depends on. -/
structure EventBody where
  summary : String
  startMin : Int
  durationMin : Nat
deriving DecidableEq

/-- Python truthiness of the `external_key` argument (`if external_key:`,
google_calendar.py lines 386 and 390): a missing or empty string key is
treated as absent. -/
def normKey (o : Option String) : Option String :=
  match o with
  | some s => if s = "" then none else some s
  | none => none

/-- `push_sport_event` (google_calendar.py lines 335-409): builds the event
body (`duration_min or 60`; the Notion page id goes into the private
extended properties only when `external_key` is truthy — both guards at
lines 386 and 390 are Python `if external_key:`, so an empty-string key
behaves like no key), then upserts: when the key is truthy, list the events
carrying that key inside the ±2-day window around the event and update the
first hit, otherwise insert a keyless event.  Returns the calendar and the
id of the written event. -/
def pushSportEvent (cal : List GEvent) (b : EventBody)
    (externalKey : Option String) (freshEid : Nat) : List GEvent × Nat :=
  let effDur : Nat := if b.durationMin = 0 then 60 else b.durationMin
  let startDt := b.startMin
  let endDt := b.startMin + (effDur : Int)
  let newEvt : GEvent :=
    ⟨freshEid, b.summary, startDt, endDt, normKey externalKey⟩
  match normKey externalKey with
  | some k =>
      match cal.find? (fun e =>
          decide (e.notionPageId = some k)
          && decide (startDt - 2880 < e.endMin)
          && decide (e.startMin < endDt + 2880)) with
      | some e =>
          (cal.map (fun e2 =>
             if e2.eid = e.eid then { newEvt with eid := e.eid } else e2),
           e.eid)
      | none => (cal ++ [newEvt], freshEid)
  | none => (cal ++ [newEvt], freshEid)

/-- A Notion plan session as fetched by `fetch_plan_sessions`, restricted to
the fields `push_plans_window` reads. -/
structure PlanSession where
  pageId : String
  name : String
  startMin : Int
  durationMin : Nat
deriving DecidableEq

/-- One iteration of `push_plans_window` (plan_to_calendar.py lines 17-31):
`duration = s.duration_min or DEFAULT_DURATION`, then `push_sport_event`
called — without `external_key` (the call at lines 22-28 passes only
summary/start/duration/sport/types). -/
def planPushStep (acc : List GEvent × Nat × Nat) (s : PlanSession) :
    List GEvent × Nat × Nat :=
  let r := pushSportEvent acc.1
    ⟨s.name, s.startMin, (if s.durationMin = 0 then 60 else s.durationMin)⟩
    none acc.2.1
  (r.1, acc.2.1 + 1, acc.2.2 + 1)

/-- `push_plans_window` (plan_to_calendar.py lines 10-32): push every plan
session of the window.  Returns the calendar, the next fresh event id and
the count of pushed sessions. -/
def pushPlansWindow (sessions : List PlanSession) (cal : List GEvent)
    (fresh : Nat) : List GEvent × Nat × Nat :=
  sessions.foldl planPushStep (cal, fresh, 0)

/-- `REQUIRED_ENV` (config.py lines 61-67). -/
def REQUIRED_ENV : List String :=
  ["NOTION_API_KEY", "NOTION_DB_ACTIVITIES", "STRAVA_CLIENT_ID",
   "STRAVA_CLIENT_SECRET", "STRAVA_REFRESH_TOKEN"]

/-- Python `not os.getenv(k)`: the variable is absent or empty. -/
def envFalsy (o : Option String) : Bool :=
  match o with
  | none => true
  | some s => s == ""

/-- `_missing` (config.py line 69): the required variables that are absent
or empty. -/
def missingEnv (env : String → Option String) : List String :=
  REQUIRED_ENV.filter (fun k => envFalsy (env k))

/-- Python `", ".join(l)`. -/
def joinComma : List String → String
  | [] => ""
  | [s] => s
  | s :: rest => s ++ ", " ++ joinComma rest

/-- The `RuntimeError` message raised by config.py lines 70-74. -/
def envErrorMessage (missing : List String) : String :=
  "Variables d\x27environnement manquantes: " ++ joinComma missing
    ++ "\n👉 Vérifie ton fichier .env"

/-- The import-time validation of config.py lines 69-74: raise a
`RuntimeError` naming the missing variables when any required variable is
absent or empty, otherwise do nothing. -/
def validateEnv (env : String → Option String) : Except String Unit :=
  match missingEnv env with
  | [] => Except.ok ()
  | ms => Except.error (envErrorMessage ms)

/-- The substring relation: `sub` occurs contiguously inside `msg`. -/
def strContains (msg sub : String) : Prop :=
  ∃ l r : List Char, msg.data = l ++ sub.data ++ r

/-- The local cache database of storage/db.py: the generic `checkpoints`
key-value table and the `seen_routes` table
(`route_id ↦ (updated_at, checksum, synced_at)`). -/
structure CacheDb where
  checkpoints : List (String × String)
  seen_routes : List (Int × Option String × Option String × String)

/-- `get_checkpoint` (storage/db.py lines 51-57). -/
def getCheckpoint (db : CacheDb) (k : String) : Option String :=
  alookup db.checkpoints k

/-- `set_checkpoint` (storage/db.py lines 59-64):
`INSERT ... ON CONFLICT(key) DO UPDATE SET value=excluded.value`. -/
def setCheckpoint (db : CacheDb) (k v : String) : CacheDb :=
  { db with checkpoints := aset db.checkpoints k v }

/-- `mark_route_seen` (storage/db.py lines 78-94): upsert of
`(route_id, updated_at, checksum, synced_at)` keyed by `route_id`. -/
def markRouteSeen (db : CacheDb) (rid : Int) (u c : Option String)
    (now : String) : CacheDb :=
  { db with seen_routes := aset db.seen_routes rid (u, c, now) }

/-- `get_seen_routes` (storage/db.py lines 67-76): project the table to
`{route_id: (updated_at, checksum)}`. -/
def getSeenRoutes (db : CacheDb) : SeenRoutes :=
  db.seen_routes.map (fun row => (row.1, row.2.1, row.2.2.1))

/-- Python truthiness test `not x` on an optional float argument of
`_trimp_bannister`: true when the value is missing (`None`) or zero. -/
def pyFalsy (o : Option ℚ) : Bool :=
  match o with
  | some q => decide (q = 0)
  | none => true

/-- Python `round(x, 1)`, modelled with mathematical half-up rounding (it
agrees with Python's float rounding away from exact ties, in particular on
every value appearing in the claims). -/
noncomputable def pyRound1 (x : ℝ) : ℝ :=
  ((round (10 * x) : ℤ) : ℝ) / 10

/-- Python `sex.upper().startswith("F")` (strava_to_notion.py line 201):
the first character of the uppercased string is `F` (ASCII uppercasing,
which agrees with Python on the "M"/"F" values this flag takes). -/
def pySexIsFemale (sex : String) : Bool :=
  match sex.data.map Char.toUpper with
  | c :: _ => c == 'F'
  | [] => false

/-- `_trimp_bannister` (strava_to_notion.py lines 191-202, identical to
`trimp_bannister` in scripts/backfill_strava.py lines 75-85).  Inputs are
kept rational so the guard is the source's decidable branch; the formula is
evaluated over `ℝ`. -/
noncomputable def trimp_bannister (duration_s hr_avg hr_max : Option ℚ)
    (hr_rest : ℚ) (sex : String) : Option ℝ :=
  if pyFalsy duration_s || pyFalsy hr_avg || pyFalsy hr_max
      || decide (hr_max.getD 0 ≤ hr_rest) then none
  else
    let d : ℝ := ((duration_s.getD 0 : ℚ) : ℝ)
    let ha : ℝ := ((hr_avg.getD 0 : ℚ) : ℝ)
    let hm : ℝ := ((hr_max.getD 0 : ℚ) : ℝ)
    let hrr : ℝ := ((hr_rest : ℚ) : ℝ)
    let durationMin : ℝ := d / 60
    let hrR : ℝ := (ha - hrr) / (hm - hrr)
    let ab : ℚ × ℚ :=
      if pySexIsFemale sex then (0.86, 1.67) else (0.64, 1.92)
    some (pyRound1 (durationMin * hrR * ((ab.1 : ℚ) : ℝ)
      * Real.exp (((ab.2 : ℚ) : ℝ) * hrR)))

theorem alookup_aset_self {α β : Type} [DecidableEq α] (d : List (α × β))
    (k : α) (v : β) : alookup (aset d k v) k = some v := by
  induction d with
  | nil => simp [aset, alookup]
  | cons kv rest ih =>
      by_cases h : kv.1 = k
      · simp [aset, h, alookup]
      · simp [aset, h, alookup, ih]

theorem alookup_aset_ne {α β : Type} [DecidableEq α] (d : List (α × β))
    (k k' : α) (v : β) (h : k' ≠ k) :
    alookup (aset d k v) k' = alookup d k' := by
  have h2 : ¬k = k' := fun e => h e.symm
  induction d with
  | nil => simp [aset, alookup, h2]
  | cons kv rest ih =>
      by_cases hk : kv.1 = k
      · simp [aset, hk, alookup, h2]
      · simp [aset, hk, alookup, ih]

theorem alookup_projected_seen_routes
    (l : List (Int × Option String × Option String × String)) (r : Int) :
    alookup (l.map (fun row => (row.1, row.2.1, row.2.2.1))) r
      = (alookup l r).map (fun x => (x.1, x.2.1)) := by
  induction l with
  | nil => simp [alookup]
  | cons row rest ih =>
      by_cases h : row.1 = r
      · simp [alookup, h]
      · simp [alookup, h, ih]

/-- C10: the local cache round-trips: a checkpoint read after a write
returns the written value, a second write overwrites, and after
`mark_route_seen` the map returned by `get_seen_routes` maps the route id to
exactly the recorded `(updated_at, checksum)` pair, whether or not the key
was present before. -/
theorem cache_roundtrip (db : CacheDb) (k v v2 : String) (r : Int)
    (u c : Option String) (now : String) :
    getCheckpoint (setCheckpoint db k v) k = some v
    ∧ getCheckpoint (setCheckpoint (setCheckpoint db k v) k v2) k = some v2
    ∧ alookup (getSeenRoutes (markRouteSeen db r u c now)) r = some (u, c) := by
  refine ⟨?_, ?_, ?_⟩
  · exact alookup_aset_self _ _ _
  · exact alookup_aset_self _ _ _
  · rw [markRouteSeen, getSeenRoutes]
    rw [alookup_projected_seen_routes]
    rw [alookup_aset_self]
    rfl

theorem strContains_joinComma (l : List String) (k : String) (h : k ∈ l) :
    strContains (joinComma l) k := by
  induction l with
  | nil => cases h
  | cons s rest ih =>
      rcases List.mem_cons.mp h with rfl | hmem
      · cases rest with
        | nil => exact ⟨[], [], by simp [joinComma]⟩
        | cons b bs =>
            exact ⟨[], (", " ++ joinComma (b :: bs)).data, by
              simp [joinComma, String.data_append]⟩
      · cases rest with
        | nil => cases hmem
        | cons b bs =>
            obtain ⟨dl, dr, hd⟩ := ih hmem
            exact ⟨(s ++ ", ").data ++ dl, dr, by
              simp [joinComma, String.data_append, hd]⟩

theorem strContains_envErrorMessage (ms : List String) (k : String)
    (h : k ∈ ms) : strContains (envErrorMessage ms) k := by
  obtain ⟨dl, dr, hd⟩ := strContains_joinComma ms k h
  refine ⟨("Variables d\x27environnement manquantes: ").data ++ dl,
    dr ++ ("\n👉 Vérifie ton fichier .env").data, ?_⟩
  simp [envErrorMessage, String.data_append, hd]

/-- C9: startup configuration check — when a required environment variable
is absent or empty, the import-time validation fails with a message naming
every missing variable; when all are present and non-empty it succeeds and
is not a silent no-op. -/
theorem startup_env_check (env : String → Option String) :
    ((∃ k ∈ REQUIRED_ENV, envFalsy (env k) = true) →
        validateEnv env = Except.error (envErrorMessage (missingEnv env))
        ∧ ∀ k ∈ REQUIRED_ENV, envFalsy (env k) = true →
            strContains (envErrorMessage (missingEnv env)) k)
    ∧ ((∀ k ∈ REQUIRED_ENV, envFalsy (env k) = false) →
        validateEnv env = Except.ok ()) := by
  constructor
  · rintro ⟨k, hk, hfalsy⟩
    have hmem : k ∈ missingEnv env := List.mem_filter.mpr ⟨hk, hfalsy⟩
    have hne : missingEnv env ≠ [] := by
      intro he
      rw [he] at hmem
      cases hmem
    constructor
    · rw [validateEnv]
      cases hm : missingEnv env with
      | nil => exact absurd hm hne
      | cons a as => simp [hm]
    · intro k2 hk2 hf2
      exact strContains_envErrorMessage _ _ (List.mem_filter.mpr ⟨hk2, hf2⟩)
  · intro hall
    have he : missingEnv env = [] := by
      rw [missingEnv, List.filter_eq_nil_iff]
      intro a ha
      simp [hall a ha]
    rw [validateEnv, he]

/-- Witness for C9 at a concrete environment missing exactly
`STRAVA_CLIENT_ID`. -/
theorem startup_env_check_witness :
    validateEnv (fun k => if k = "STRAVA_CLIENT_ID" then none else some "x")
      = Except.error (envErrorMessage
          (missingEnv (fun k => if k = "STRAVA_CLIENT_ID" then none else some "x")))
    ∧ strContains (envErrorMessage
          (missingEnv (fun k => if k = "STRAVA_CLIENT_ID" then none else some "x")))
        "STRAVA_CLIENT_ID" := by
  have h := startup_env_check
    (fun k => if k = "STRAVA_CLIENT_ID" then none else some "x")
  have hex : ∃ k ∈ REQUIRED_ENV,
      envFalsy ((fun k => if k = "STRAVA_CLIENT_ID" then none else some "x") k)
        = true := by
    exact ⟨"STRAVA_CLIENT_ID", by decide, by decide⟩
  exact ⟨(h.1 hex).1, (h.1 hex).2 "STRAVA_CLIENT_ID" (by decide) (by decide)⟩

theorem mem_aset {α β : Type} [DecidableEq α] (d : List (α × β)) (k : α)
    (v : β) (kv : α × β) (h : kv ∈ aset d k v) : kv ∈ d ∨ kv.1 = k := by
  induction d with
  | nil =>
      simp [aset] at h
      subst h
      exact Or.inr rfl
  | cons hd rest ih =>
      by_cases hk : hd.1 = k
      · simp only [aset, if_pos hk] at h
        rcases List.mem_cons.mp h with rfl | hmem
        · exact Or.inr rfl
        · exact Or.inl (List.mem_cons_of_mem _ hmem)
      · simp only [aset, if_neg hk] at h
        rcases List.mem_cons.mp h with rfl | hmem
        · exact Or.inl (List.mem_cons_self _ _)
        · rcases ih hmem with h2 | h2
          · exact Or.inl (List.mem_cons_of_mem _ h2)
          · exact Or.inr h2

theorem mem_dictUpdate {α β : Type} [DecidableEq α] (new d : List (α × β))
    (kv : α × β) (h : kv ∈ dictUpdate d new) :
    kv ∈ d ∨ kv.1 ∈ new.map Prod.fst := by
  induction new generalizing d with
  | nil => exact Or.inl h
  | cons n ns ih =>
      rcases ih (aset d n.1 n.2) h with h2 | h2
      · rcases mem_aset _ _ _ _ h2 with h3 | h3
        · exact Or.inl h3
        · exact Or.inr (by rw [List.map_cons, h3]; exact List.mem_cons_self _ _)
      · exact Or.inr (by rw [List.map_cons]; exact List.mem_cons_of_mem _ h2)

theorem propsForDb_keys (na : NotionActivity) (schema : Schema)
    (kv : String × PVal) (h : kv ∈ propsForDb na schema) :
    hasKey schema kv.1 = true := by
  simp only [propsForDb, List.mem_append, or_assoc] at h
  rcases h with h | h | h | h | h | h | h | h | h | h | h | h <;>
    (repeat split at h) <;> simp_all [hasKey]

theorem detailProps_keys (schema : Schema) (d : ActivityDetail)
    (trimp : Option ℚ) (kv : String × PVal)
    (h : kv ∈ detailProps schema d trimp) : hasKey schema kv.1 = true := by
  simp only [detailProps, List.mem_append, or_assoc] at h
  rcases h with h | h | h | h | h | h | h | h <;>
    (repeat split at h) <;> simp_all

/-- C6: field-mapping robustness — for every activity, destination schema,
detail metrics, TRIMP value and place-relation payload, the property payload
built for the Notion write contains only keys present in the schema, so a
schema missing any optional property is never sent that property. -/
theorem activity_payload_respects_schema (na : NotionActivity)
    (schema : Schema) (d : ActivityDetail) (trimp : Option ℚ)
    (placeProps : List (String × PVal)) :
    (buildActivityProps na schema d trimp placeProps).all
      (fun kv => hasKey schema kv.1) = true := by
  rw [List.all_eq_true]
  intro kv hmem
  rw [buildActivityProps] at hmem
  rcases mem_dictUpdate _ _ _ hmem with h1 | h1
  · rcases mem_dictUpdate _ _ _ h1 with h2 | h2
    · exact propsForDb_keys na schema kv h2
    · obtain ⟨kv2, hkv2, hfst⟩ := List.mem_map.mp h2
      rw [← hfst]
      exact detailProps_keys schema d trimp kv2 hkv2
  · obtain ⟨kv2, hkv2, hfst⟩ := List.mem_map.mp h1
    rw [← hfst]
    have := List.mem_filter.mp hkv2
    simpa using this.2

theorem alookup_dictUpdate_of_not_mem {α β : Type} [DecidableEq α]
    (new d : List (α × β)) (k : α) (h : k ∉ new.map Prod.fst) :
    alookup (dictUpdate d new) k = alookup d k := by
  induction new generalizing d with
  | nil => rfl
  | cons n ns ih =>
      have h1 : k ∉ ns.map Prod.fst := fun hm =>
        h (by rw [List.map_cons]; exact List.mem_cons_of_mem _ hm)
      have h2 : k ≠ n.1 := fun he =>
        h (by rw [List.map_cons, he]; exact List.mem_cons_self _ _)
      show alookup (dictUpdate (aset d n.1 n.2) ns) k = alookup d k
      rw [ih (aset d n.1 n.2) h1, alookup_aset_ne _ _ _ _ h2]

theorem alookup_dictUpdate_self {α β : Type} [DecidableEq α]
    (new d : List (α × β)) (k : α) (v : β)
    (hv : alookup new k = some v) (hnd : (new.map Prod.fst).Nodup) :
    alookup (dictUpdate d new) k = some v := by
  induction new generalizing d with
  | nil => cases hv
  | cons n ns ih =>
      by_cases he : n.1 = k
      · have hveq : v = n.2 := by
          rw [alookup, if_pos he] at hv
          exact (Option.some.injEq _ _ ▸ hv.symm)
        have hnot : k ∉ ns.map Prod.fst := by
          rw [List.map_cons] at hnd
          rw [← he]
          exact (List.nodup_cons.mp hnd).1
        show alookup (dictUpdate (aset d n.1 n.2) ns) k = some v
        rw [alookup_dictUpdate_of_not_mem _ _ _ hnot, he,
          alookup_aset_self, hveq]
      · have hv2 : alookup ns k = some v := by
          rw [alookup, if_neg he] at hv
          exact hv
        have hnd2 : (ns.map Prod.fst).Nodup := by
          rw [List.map_cons] at hnd
          exact (List.nodup_cons.mp hnd).2
        exact ih (aset d n.1 n.2) hv2 hnd2

/-- C1: upsert correctness — for every synced item, when a destination page
matched by the item's external-id property already exists, the sync updates
that page in place (same pages, same page ids, the matched page merged with
the new payload) and the number of pages carrying that external id does not
grow; when no such page exists, exactly one page carrying the external id is
created.  `upsertPage` is the write step of both `sync_strava_to_notion`
(key "Strava ID") and `sync_strava_routes_to_notion`
(key "Strava Route ID"). -/
theorem sync_upsert_correct (db : List Page) (key : String) (v : PVal)
    (props : List (String × PVal)) (fresh : Nat)
    (hv : alookup props key = some v)
    (hnd : (props.map Prod.fst).Nodup)
    (hpid : (db.map Page.pid).Nodup) :
    ((∃ pg ∈ db, matchesKey key v pg = true) →
       ∃ pg0 ∈ db, matchesKey key v pg0 = true
         ∧ upsertPage true key v props fresh db
             = db.map (fun pg => if pg.pid = pg0.pid then
                 { pg with props := dictUpdate pg.props props } else pg)
         ∧ (upsertPage true key v props fresh db).length = db.length
         ∧ countMatch key v (upsertPage true key v props fresh db)
             = countMatch key v db)
    ∧ ((∀ pg ∈ db, matchesKey key v pg = false) →
       upsertPage true key v props fresh db = db ++ [⟨fresh, props⟩]
         ∧ countMatch key v (upsertPage true key v props fresh db) = 1) := by
  constructor
  · rintro ⟨pg, hpg, hmatch⟩
    have hsome : (db.find? (matchesKey key v)).isSome := by
      rw [List.find?_isSome]
      exact ⟨pg, hpg, hmatch⟩
    obtain ⟨pg0, hfind⟩ := Option.isSome_iff_exists.mp hsome
    have hpg0mem : pg0 ∈ db := List.mem_of_find?_eq_some hfind
    have hpg0match : matchesKey key v pg0 = true := List.find?_some hfind
    have hup : upsertPage true key v props fresh db
        = db.map (fun pg2 => if pg2.pid = pg0.pid then
            { pg2 with props := dictUpdate pg2.props props } else pg2) := by
      rw [upsertPage, findPageIdBy, hfind]
      rfl
    refine ⟨pg0, hpg0mem, hpg0match, hup, ?_, ?_⟩
    · rw [hup, List.length_map]
    · rw [hup, countMatch, countMatch, List.countP_map]
      refine List.countP_congr ?_
      intro pg2 hpg2
      show (matchesKey key v (if pg2.pid = pg0.pid
          then { pg2 with props := dictUpdate pg2.props props } else pg2)
          = true) ↔ (matchesKey key v pg2 = true)
      by_cases hpideq : pg2.pid = pg0.pid
      · rw [if_pos hpideq]
        have hpg2eq : pg2 = pg0 :=
          List.inj_on_of_nodup_map hpid hpg2 hpg0mem hpideq
        -- the matched page is updated in place; it matched before, and
        -- after the merge its external-id property is the payload value
        have hafter : matchesKey key v
            { pg2 with props := dictUpdate pg2.props props } = true := by
          simp only [matchesKey]
          rw [alookup_dictUpdate_self _ _ _ _ hv hnd]
          simp
        rw [hafter, hpg2eq, hpg0match]
      · rw [if_neg hpideq]
  · intro hnone
    have hfind : db.find? (matchesKey key v) = none := by
      rw [List.find?_eq_none]
      intro pg hpg
      rw [hnone pg hpg]
      simp
    have hup : upsertPage true key v props fresh db
        = db ++ [⟨fresh, props⟩] := by
      rw [upsertPage, findPageIdBy, hfind]
      rfl
    refine ⟨hup, ?_⟩
    rw [hup, countMatch, List.countP_append]
    have h0 : db.countP (matchesKey key v) = 0 := by
      rw [List.countP_eq_zero]
      intro pg hpg
      rw [hnone pg hpg]
      simp
    have h1 : List.countP (matchesKey key v) [⟨fresh, props⟩] = 1 := by
      have : matchesKey key v ⟨fresh, props⟩ = true := by
        simp [matchesKey, hv]
      simp [List.countP_cons, this]
    rw [h0, h1]

/-- Witness for C1 at a concrete one-page database: updating the page that
carries the external id keeps exactly one matching page, and inserting into
a database without a match creates exactly one. -/
theorem sync_upsert_correct_witness :
    countMatch "Strava ID" (PVal.richText "42")
        (upsertPage true "Strava ID" (PVal.richText "42")
          [("Strava ID", PVal.richText "42"), ("Nom", PVal.title "run")] 5
          [⟨0, [("Strava ID", PVal.richText "42")]⟩])
      = countMatch "Strava ID" (PVal.richText "42")
          [⟨0, [("Strava ID", PVal.richText "42")]⟩]
    ∧ countMatch "Strava ID" (PVal.richText "42")
        (upsertPage true "Strava ID" (PVal.richText "42")
          [("Strava ID", PVal.richText "42"), ("Nom", PVal.title "run")] 5 [])
      = 1 := by
  have h1 := sync_upsert_correct [⟨0, [("Strava ID", PVal.richText "42")]⟩]
    "Strava ID" (PVal.richText "42")
    [("Strava ID", PVal.richText "42"), ("Nom", PVal.title "run")] 5
    (by decide) (by decide) (by decide)
  have h2 := sync_upsert_correct [] "Strava ID" (PVal.richText "42")
    [("Strava ID", PVal.richText "42"), ("Nom", PVal.title "run")] 5
    (by decide) (by decide) (by decide)
  constructor
  · obtain ⟨_, _, _, _, _, hcnt⟩ :=
      h1.1 ⟨⟨0, [("Strava ID", PVal.richText "42")]⟩, by decide, by decide⟩
    exact hcnt
  · exact (h2.2 (by intro pg hpg; cases hpg)).2

theorem actFold_seen_mono (h f : Bool) (acts : List ActItem)
    (acc : ActState × Nat × Nat) (s : String) (hs : s ∈ acc.1.seenA) :
    s ∈ (acts.foldl (actStep h f) acc).1.seenA := by
  induction acts generalizing acc with
  | nil => exact hs
  | cons a as ih =>
      apply ih
      rw [actStep]
      split
      · exact hs
      · show s ∈ markSeen acc.1.seenA a.sid
        rw [markSeen]
        split
        · exact hs
        · exact List.mem_append_left _ hs

theorem actFold_marks_all (h f : Bool) (acts : List ActItem)
    (acc : ActState × Nat × Nat) (a : ActItem) (ha : a ∈ acts) :
    a.sid ∈ (acts.foldl (actStep h f) acc).1.seenA := by
  induction acts generalizing acc with
  | nil => cases ha
  | cons b bs ih =>
      rcases List.mem_cons.mp ha with rfl | hmem
      · rw [List.foldl_cons]
        apply actFold_seen_mono
        show a.sid ∈ (actStep h f acc a).1.seenA
        rw [actStep]
        split
        · rename_i hcond
          simp only [Bool.and_eq_true] at hcond
          exact List.elem_iff.mp hcond.2
        · show a.sid ∈ markSeen acc.1.seenA a.sid
          rw [markSeen]
          split
          · rename_i hc
            exact List.elem_iff.mp hc
          · exact List.mem_append_right _ (List.mem_singleton.mpr rfl)
      · exact ih (actStep h f acc b) hmem

theorem actFold_all_seen_skips (h : Bool) (acts : List ActItem)
    (acc : ActState × Nat × Nat)
    (hall : ∀ a ∈ acts, a.sid ∈ acc.1.seenA) :
    acts.foldl (actStep h false) acc
      = (acc.1, acc.2.1, acc.2.2 + acts.length) := by
  induction acts generalizing acc with
  | nil => rfl
  | cons a as ih =>
      have hc : acc.1.seenA.contains a.sid = true :=
        List.elem_iff.mpr (hall a (List.mem_cons_self _ _))
      have hstep : actStep h false acc a = (acc.1, acc.2.1, acc.2.2 + 1) := by
        rw [actStep, if_pos (by rw [hc]; rfl)]
      rw [List.foldl_cons, hstep,
        ih ((acc.1, acc.2.1, acc.2.2 + 1))
          (fun b hb => hall b (List.mem_cons_of_mem _ hb))]
      simp [List.length_cons]
      omega

theorem shouldProcess_congr (rt : RouteItem) (s1 s2 : SeenRoutes)
    (h : alookup s1 rt.rid = alookup s2 rt.rid) :
    shouldProcess rt s1 = shouldProcess rt s2 := by
  rw [shouldProcess, shouldProcess, h]

theorem shouldProcess_cache_hit (rt : RouteItem) (seen : SeenRoutes)
    (h : alookup seen rt.rid
      = some (normUpdatedAt rt, some (checksumRoute rt))) :
    shouldProcess rt seen = false := by
  rw [shouldProcess, h]
  cases hn : normUpdatedAt rt <;> simp [hn]

theorem routeFold_all_skip (h2 : Bool) (seen0 : SeenRoutes)
    (mk : RouteItem → List (String × PVal)) (iv : RouteItem → PVal)
    (fails : Int → Bool) (routes : List RouteItem) (acc : RouteRun)
    (hall : ∀ rt ∈ routes, shouldProcess rt seen0 = false) :
    routes.foldl (routeStep h2 false seen0 mk iv fails) acc
      = { acc with skipped := acc.skipped + routes.length } := by
  induction routes generalizing acc with
  | nil => rfl
  | cons rt rts ih =>
      have hc : ((!false) && !(shouldProcess rt seen0)) = true := by
        rw [hall rt (List.mem_cons_self _ _)]
        rfl
      have hstep : routeStep h2 false seen0 mk iv fails acc rt
          = { acc with skipped := acc.skipped + 1 } := by
        rw [routeStep, if_pos hc]
      rw [List.foldl_cons, hstep,
        ih _ (fun r hr => hall r (List.mem_cons_of_mem _ hr))]
      simp only [List.length_cons]
      congr 1
      omega

theorem routeFold_other_keys (h2 force : Bool) (seen0 : SeenRoutes)
    (mk : RouteItem → List (String × PVal)) (iv : RouteItem → PVal)
    (fails : Int → Bool) (routes : List RouteItem) (acc : RouteRun)
    (rid : Int) (hne : ∀ rt ∈ routes, rt.rid ≠ rid) :
    alookup
      (routes.foldl (routeStep h2 force seen0 mk iv fails) acc).st.seenR rid
      = alookup acc.st.seenR rid := by
  induction routes generalizing acc with
  | nil => rfl
  | cons rt rts ih =>
      rw [List.foldl_cons, ih _ (fun r hr => hne r (List.mem_cons_of_mem _ hr))]
      rw [routeStep]
      split
      · rfl
      · split
        · rfl
        · show alookup (aset acc.st.seenR rt.rid
            (normUpdatedAt rt, some (checksumRoute rt))) rid
            = alookup acc.st.seenR rid
          exact alookup_aset_ne _ _ _ _
            (fun he => hne rt (List.mem_cons_self _ _) he.symm)

theorem routeFold_final_entry (h2 : Bool)
    (mk : RouteItem → List (String × PVal)) (iv : RouteItem → PVal)
    (routes : List RouteItem) (st : RouteState) (rt : RouteItem)
    (hmem : rt ∈ routes)
    (hnodup : (routes.map RouteItem.rid).Nodup) :
    (shouldProcess rt st.seenR = true →
       alookup (syncRoutes h2 false mk iv (fun _ => false) routes st).st.seenR
           rt.rid
         = some (normUpdatedAt rt, some (checksumRoute rt)))
    ∧ (shouldProcess rt st.seenR = false →
       alookup (syncRoutes h2 false mk iv (fun _ => false) routes st).st.seenR
           rt.rid
         = alookup st.seenR rt.rid) := by
  obtain ⟨l1, l2, hsplit⟩ := List.append_of_mem hmem
  subst hsplit
  have hnd := hnodup
  rw [List.map_append, List.map_cons] at hnd
  have hmid := List.nodup_middle.mp hnd
  have hnotmem : rt.rid ∉ (l1.map RouteItem.rid ++ l2.map RouteItem.rid) :=
    (List.nodup_cons.mp hmid).1
  have hne1 : ∀ r ∈ l1, r.rid ≠ rt.rid := by
    intro r hr he
    exact hnotmem (List.mem_append_left _ (he ▸ List.mem_map_of_mem _ hr))
  have hne2 : ∀ r ∈ l2, r.rid ≠ rt.rid := by
    intro r hr he
    exact hnotmem (List.mem_append_right _ (he ▸ List.mem_map_of_mem _ hr))
  rw [syncRoutes, List.foldl_append, List.foldl_cons]
  rw [routeFold_other_keys _ _ _ _ _ _ _ _ _ hne2]
  have hl1 : alookup (l1.foldl
      (routeStep h2 false st.seenR mk iv (fun _ => false)) ⟨st, 0, 0, [], []⟩
      ).st.seenR rt.rid = alookup st.seenR rt.rid :=
    routeFold_other_keys _ _ _ _ _ _ _ _ _ hne1
  constructor
  · intro hsp
    have hc : ((!false) && !(shouldProcess rt st.seenR)) = false := by
      rw [hsp]
      rfl
    rw [routeStep, if_neg (by rw [hc]; exact Bool.false_ne_true)]
    show alookup (aset _ rt.rid
      (normUpdatedAt rt, some (checksumRoute rt))) rt.rid = _
    rw [alookup_aset_self]
  · intro hsp
    have hc : ((!false) && !(shouldProcess rt st.seenR)) = true := by
      rw [hsp]
      rfl
    rw [routeStep, if_pos hc]
    exact hl1

/-- C2: idempotence of sync — with the remote source unchanged and no force
flag, a second run of the activity sync performs zero destination writes
(state unchanged, `created_or_updated = 0`, every item counted as already
seen), and likewise a second run of the route sync skips every route
(state unchanged, nothing written, `skipped` = number of routes). -/
theorem sync_idempotent (h hr : Bool) (acts : List ActItem) (ast : ActState)
    (mk : RouteItem → List (String × PVal)) (iv : RouteItem → PVal)
    (routes : List RouteItem) (rst : RouteState)
    (hnodup : (routes.map RouteItem.rid).Nodup) :
    syncActivities h false acts (syncActivities h false acts ast).1
      = ((syncActivities h false acts ast).1, 0, acts.length)
    ∧ syncRoutes hr false mk iv (fun _ => false) routes
        (syncRoutes hr false mk iv (fun _ => false) routes rst).st
      = ⟨(syncRoutes hr false mk iv (fun _ => false) routes rst).st, 0,
         routes.length, [], []⟩ := by
  constructor
  · have hall : ∀ a ∈ acts,
        a.sid ∈ (syncActivities h false acts ast).1.seenA := by
      intro a ha
      exact actFold_marks_all h false acts _ a ha
    show acts.foldl (actStep h false)
      ((syncActivities h false acts ast).1, 0, 0) = _
    rw [actFold_all_seen_skips h acts
      ((syncActivities h false acts ast).1, 0, 0) hall]
    simp
  · have hall : ∀ rt ∈ routes,
        shouldProcess rt
          (syncRoutes hr false mk iv (fun _ => false) routes rst).st.seenR
          = false := by
      intro rt hrt
      have hfe := routeFold_final_entry hr mk iv routes rst rt hrt hnodup
      cases hsp : shouldProcess rt rst.seenR
      · rw [shouldProcess_congr rt _ rst.seenR (hfe.2 hsp)]
        exact hsp
      · exact shouldProcess_cache_hit rt _ (hfe.1 hsp)
    rw [syncRoutes]
    rw [routeFold_all_skip hr _ mk iv _ routes _ hall]
    simp

/-- Witness for C2: a concrete one-activity, one-route double run where the
second run writes nothing. -/
theorem sync_idempotent_witness :
    syncActivities true false [⟨"7", [], PVal.richText "7"⟩]
        (syncActivities true false [⟨"7", [], PVal.richText "7"⟩]
          ⟨[], [], 0⟩).1
      = ((syncActivities true false [⟨"7", [], PVal.richText "7"⟩]
          ⟨[], [], 0⟩).1, 0, 1)
    ∧ syncRoutes true false (fun _ => []) (fun _ => PVal.richText "9")
        (fun _ => false) [⟨9, "r", 0, 0, none, none, none⟩]
        (syncRoutes true false (fun _ => []) (fun _ => PVal.richText "9")
          (fun _ => false) [⟨9, "r", 0, 0, none, none, none⟩]
          ⟨[], [], 0⟩).st
      = ⟨(syncRoutes true false (fun _ => []) (fun _ => PVal.richText "9")
          (fun _ => false) [⟨9, "r", 0, 0, none, none, none⟩]
          ⟨[], [], 0⟩).st, 0, 1, [], []⟩ := by
  have h := sync_idempotent true true [⟨"7", [], PVal.richText "7"⟩]
    ⟨[], [], 0⟩ (fun _ => []) (fun _ => PVal.richText "9")
    [⟨9, "r", 0, 0, none, none, none⟩] ⟨[], [], 0⟩ (by decide)
  exact h

theorem routeFold_not_written (h2 : Bool) (seen0 : SeenRoutes)
    (mk : RouteItem → List (String × PVal)) (iv : RouteItem → PVal)
    (fails : Int → Bool) (routes : List RouteItem) (acc : RouteRun) (X : Int)
    (hX : ∀ r ∈ routes, r.rid = X → shouldProcess r seen0 = false)
    (hw : X ∉ acc.writtenIds) (he : X ∉ acc.errors) :
    X ∉ (routes.foldl (routeStep h2 false seen0 mk iv fails) acc).writtenIds
    ∧ X ∉ (routes.foldl (routeStep h2 false seen0 mk iv fails) acc).errors
    := by
  induction routes generalizing acc with
  | nil => exact ⟨hw, he⟩
  | cons r rs ih =>
      rw [List.foldl_cons]
      refine ih (routeStep h2 false seen0 mk iv fails acc r) ?_ ?_ ?_
      · exact fun b hb => hX b (List.mem_cons_of_mem _ hb)
      · rw [routeStep]
        split
        · exact hw
        · split
          · exact hw
          · show X ∉ acc.writtenIds ++ [r.rid]
            intro hmem
            rcases List.mem_append.mp hmem with hmem | hmem
            · exact hw hmem
            · have hrid : r.rid = X := (List.mem_singleton.mp hmem).symm
              have hsp := hX r (List.mem_cons_self _ _) hrid
              simp_all
      · rw [routeStep]
        split
        · exact he
        · split
          · show X ∉ acc.errors ++ [r.rid]
            intro hmem
            rcases List.mem_append.mp hmem with hmem | hmem
            · exact he hmem
            · have hrid : r.rid = X := (List.mem_singleton.mp hmem).symm
              have hsp := hX r (List.mem_cons_self _ _) hrid
              simp_all
          · exact he

theorem routeFold_written_mono (h2 force : Bool) (seen0 : SeenRoutes)
    (mk : RouteItem → List (String × PVal)) (iv : RouteItem → PVal)
    (fails : Int → Bool) (routes : List RouteItem) (acc : RouteRun) (X : Int)
    (hX : X ∈ acc.writtenIds ∨ X ∈ acc.errors) :
    X ∈ (routes.foldl (routeStep h2 force seen0 mk iv fails) acc).writtenIds
    ∨ X ∈ (routes.foldl (routeStep h2 force seen0 mk iv fails) acc).errors
    := by
  induction routes generalizing acc with
  | nil => exact hX
  | cons r rs ih =>
      rw [List.foldl_cons]
      refine ih (routeStep h2 force seen0 mk iv fails acc r) ?_
      rw [routeStep]
      split
      · exact hX
      · split
        · rcases hX with hX | hX
          · exact Or.inl hX
          · exact Or.inr (List.mem_append_left _ hX)
        · rcases hX with hX | hX
          · exact Or.inl (List.mem_append_left _ hX)
          · exact Or.inr hX

theorem routeFold_force_attempts (h2 : Bool) (seen0 : SeenRoutes)
    (mk : RouteItem → List (String × PVal)) (iv : RouteItem → PVal)
    (fails : Int → Bool) (routes : List RouteItem) (acc : RouteRun)
    (rt : RouteItem) (hmem : rt ∈ routes) :
    rt.rid ∈ (routes.foldl (routeStep h2 true seen0 mk iv fails) acc).writtenIds
    ∨ rt.rid ∈ (routes.foldl (routeStep h2 true seen0 mk iv fails) acc).errors
    := by
  induction routes generalizing acc with
  | nil => cases hmem
  | cons r rs ih =>
      rw [List.foldl_cons]
      rcases List.mem_cons.mp hmem with rfl | hmem2
      · refine routeFold_written_mono h2 true seen0 mk iv fails rs _ _ ?_
        rw [routeStep]
        rw [if_neg (by simp)]
        split
        · exact Or.inr (List.mem_append_right _ (List.mem_singleton.mpr rfl))
        · exact Or.inl (List.mem_append_right _ (List.mem_singleton.mpr rfl))
      · exact ih _ hmem2

/-- C3: incremental route sync — a route whose `updated_at` and checksum
both equal the values recorded in the `seen_routes` cache is not processed:
without the force flag the run performs no destination write (successful or
failed) for it, while with the force flag it is processed anyway (its write
is attempted). -/
theorem route_cache_hit_skipped (h2 : Bool)
    (mk : RouteItem → List (String × PVal)) (iv : RouteItem → PVal)
    (fails : Int → Bool) (routes : List RouteItem) (st : RouteState)
    (rt : RouteItem)
    (hhit : alookup st.seenR rt.rid
      = some (normUpdatedAt rt, some (checksumRoute rt)))
    (hmem : rt ∈ routes)
    (huniq : ∀ r ∈ routes, r.rid = rt.rid → r = rt) :
    shouldProcess rt st.seenR = false
    ∧ rt.rid ∉ (syncRoutes h2 false mk iv fails routes st).writtenIds
    ∧ rt.rid ∉ (syncRoutes h2 false mk iv fails routes st).errors
    ∧ (rt.rid ∈ (syncRoutes h2 true mk iv fails routes st).writtenIds
       ∨ rt.rid ∈ (syncRoutes h2 true mk iv fails routes st).errors) := by
  have hsp : shouldProcess rt st.seenR = false :=
    shouldProcess_cache_hit rt st.seenR hhit
  have hX : ∀ r ∈ routes, r.rid = rt.rid → shouldProcess r st.seenR = false :=
    fun r hr hrid => (huniq r hr hrid) ▸ hsp
  have hnw := routeFold_not_written h2 st.seenR mk iv fails routes
    ⟨st, 0, 0, [], []⟩ rt.rid hX (by intro hm; cases hm) (by intro hm; cases hm)
  exact ⟨hsp, hnw.1, hnw.2,
    routeFold_force_attempts h2 st.seenR mk iv fails routes _ rt hmem⟩

/-- Witness for C3 at a concrete cached route: a one-route listing whose
cache entry matches is skipped without force and attempted with force. -/
theorem route_cache_hit_skipped_witness :
    (9 : Int) ∉ (syncRoutes true false (fun _ => [])
        (fun _ => PVal.richText "9") (fun _ => false)
        [⟨9, "r", 0, 0, none, none, none⟩]
        ⟨[(9, (none, some (checksumRoute ⟨9, "r", 0, 0, none, none, none⟩)))],
          [], 0⟩).writtenIds
    ∧ ((9 : Int) ∈ (syncRoutes true true (fun _ => [])
        (fun _ => PVal.richText "9") (fun _ => false)
        [⟨9, "r", 0, 0, none, none, none⟩]
        ⟨[(9, (none, some (checksumRoute ⟨9, "r", 0, 0, none, none, none⟩)))],
          [], 0⟩).writtenIds
       ∨ (9 : Int) ∈ (syncRoutes true true (fun _ => [])
        (fun _ => PVal.richText "9") (fun _ => false)
        [⟨9, "r", 0, 0, none, none, none⟩]
        ⟨[(9, (none, some (checksumRoute ⟨9, "r", 0, 0, none, none, none⟩)))],
          [], 0⟩).errors) := by
  have h := route_cache_hit_skipped true (fun _ => [])
    (fun _ => PVal.richText "9") (fun _ => false)
    [⟨9, "r", 0, 0, none, none, none⟩]
    ⟨[(9, (none, some (checksumRoute ⟨9, "r", 0, 0, none, none, none⟩)))],
      [], 0⟩
    ⟨9, "r", 0, 0, none, none, none⟩
    (by rfl)
    (List.mem_singleton.mpr rfl)
    (fun r hr _ => List.mem_singleton.mp hr)
  exact ⟨h.2.1, h.2.2.2⟩

theorem routeFold_disposition (h2 force : Bool) (seen0 : SeenRoutes)
    (mk : RouteItem → List (String × PVal)) (iv : RouteItem → PVal)
    (fails : Int → Bool) (routes : List RouteItem) (acc : RouteRun) :
    (routes.foldl (routeStep h2 force seen0 mk iv fails) acc).created
      + (routes.foldl (routeStep h2 force seen0 mk iv fails) acc).skipped
      + (routes.foldl (routeStep h2 force seen0 mk iv fails) acc).errors.length
      = acc.created + acc.skipped + acc.errors.length + routes.length := by
  induction routes generalizing acc with
  | nil => simp
  | cons r rs ih =>
      rw [List.foldl_cons, ih (routeStep h2 force seen0 mk iv fails acc r)]
      rw [routeStep]
      split
      all_goals try split
      all_goals simp only [List.length_cons, List.length_append,
        List.length_nil]
      all_goals omega

theorem routeFold_errors_fail (h2 force : Bool) (seen0 : SeenRoutes)
    (mk : RouteItem → List (String × PVal)) (iv : RouteItem → PVal)
    (fails : Int → Bool) (routes : List RouteItem) (acc : RouteRun)
    (hacc : acc.errors.all (fun rid => fails rid) = true) :
    ((routes.foldl (routeStep h2 force seen0 mk iv fails) acc).errors.all
      (fun rid => fails rid)) = true := by
  induction routes generalizing acc with
  | nil => exact hacc
  | cons r rs ih =>
      rw [List.foldl_cons]
      refine ih (routeStep h2 force seen0 mk iv fails acc r) ?_
      rw [routeStep]
      split
      · exact hacc
      · split
        · rename_i hf
          show ((acc.errors ++ [r.rid]).all (fun rid => fails rid)) = true
          rw [List.all_append, hacc]
          simp [hf]
        · exact hacc

/-- C8 counterexample: in the activity sync (which has no try/except around
the Notion page write), a failing write on the first item aborts the entire
run: the result is the propagated exception, the run state shows the second
item was never processed (nothing seen, nothing written, nothing counted),
contradicting the claim that the run continues with the remaining items. -/
theorem activity_write_failure_aborts_run :
    syncActivitiesE true false (fun s => s == "1")
      [⟨"1", [], PVal.richText "1"⟩, ⟨"2", [], PVal.richText "2"⟩]
      ⟨[], [], 0⟩
      = Except.error (⟨[], [], 0⟩, 0, 0) := by
  rfl

/-- C8 (amended): per-item error tolerance holds for the route sync — every
route of the run reaches a terminal disposition (skipped, written, or a
surfaced per-route error message) whatever single-page writes fail, and the
error list contains only failing writes — while in the activity sync an
uncaught page-write failure aborts the run (here: three items, the second
write raises, the third is never processed). -/
theorem per_item_error_tolerance_amended (h2 force : Bool)
    (mk : RouteItem → List (String × PVal)) (iv : RouteItem → PVal)
    (fails : Int → Bool) (routes : List RouteItem) (st : RouteState) :
    ((syncRoutes h2 force mk iv fails routes st).created
       + (syncRoutes h2 force mk iv fails routes st).skipped
       + (syncRoutes h2 force mk iv fails routes st).errors.length
       = routes.length)
    ∧ ((syncRoutes h2 force mk iv fails routes st).errors.all
        (fun rid => fails rid) = true)
    ∧ syncActivitiesE true false (fun s => s == "B")
        [⟨"A", [], PVal.richText "A"⟩, ⟨"B", [], PVal.richText "B"⟩,
         ⟨"C", [], PVal.richText "C"⟩] ⟨[], [], 0⟩
        = Except.error (⟨["A"], [⟨0, []⟩], 1⟩, 1, 0) := by
  refine ⟨?_, ?_, ?_⟩
  · have h := routeFold_disposition h2 force st.seenR mk iv fails routes
      ⟨st, 0, 0, [], []⟩
    rw [syncRoutes]
    simp only [List.length_nil] at h
    omega
  · exact routeFold_errors_fail h2 force st.seenR mk iv fails routes
      ⟨st, 0, 0, [], []⟩ rfl
  · rfl

theorem normKey_some_of_ne (k : String) (hk : k ≠ "") :
    normKey (some k) = some k := by
  simp [normKey, hk]

theorem pushSportEvent_some_key (cal : List GEvent) (b : EventBody)
    (k : String) (f : Nat) (hk : k ≠ "") :
    ∃ e ∈ (pushSportEvent cal b (some k) f).1,
      e.notionPageId = some k ∧ e.startMin = b.startMin
      ∧ e.endMin = b.startMin
          + ((if b.durationMin = 0 then 60 else b.durationMin : Nat) : Int)
    := by
  rw [pushSportEvent, normKey_some_of_ne k hk]
  simp only []
  cases hfind : cal.find? (fun e =>
      decide (e.notionPageId = some k)
      && decide (b.startMin - 2880 < e.endMin)
      && decide (e.startMin <
          b.startMin + ((if b.durationMin = 0 then 60 else b.durationMin
            : Nat) : Int) + 2880)) with
  | none =>
      refine ⟨⟨f, b.summary, b.startMin, _, some k⟩, ?_, rfl, rfl, rfl⟩
      simp [hfind]
  | some e0 =>
      refine ⟨⟨e0.eid, b.summary, b.startMin, _, some k⟩, ?_, rfl, rfl, rfl⟩
      simp only [hfind]
      refine List.mem_map.mpr ⟨e0, List.mem_of_find?_eq_some hfind, ?_⟩
      rw [if_pos rfl]

theorem pushSportEvent_existing_key_updates (cal : List GEvent)
    (b : EventBody) (k : String) (f : Nat) (hne : k ≠ "")
    (e : GEvent) (he : e ∈ cal) (hk : e.notionPageId = some k)
    (hw1 : b.startMin - 2880 < e.endMin)
    (hw2 : e.startMin < b.startMin
      + ((if b.durationMin = 0 then 60 else b.durationMin : Nat) : Int)
      + 2880) :
    ((pushSportEvent cal b (some k) f).1).length = cal.length := by
  rw [pushSportEvent, normKey_some_of_ne k hne]
  simp only []
  have hsome : (cal.find? (fun e2 =>
      decide (e2.notionPageId = some k)
      && decide (b.startMin - 2880 < e2.endMin)
      && decide (e2.startMin <
          b.startMin + ((if b.durationMin = 0 then 60 else b.durationMin
            : Nat) : Int) + 2880))).isSome := by
    rw [List.find?_isSome]
    refine ⟨e, he, ?_⟩
    show (decide (e.notionPageId = some k)
      && decide (b.startMin - 2880 < e.endMin)
      && decide (e.startMin < b.startMin
          + ((if b.durationMin = 0 then 60 else b.durationMin : Nat) : Int)
          + 2880)) = true
    rw [decide_eq_true hk, decide_eq_true hw1, decide_eq_true hw2]
    rfl
  obtain ⟨e0, hfind⟩ := Option.isSome_iff_exists.mp hsome
  simp only [hfind]
  exact List.length_map _ _

theorem planPushFold_length (sessions : List PlanSession)
    (acc : List GEvent × Nat × Nat) :
    ((sessions.foldl planPushStep acc).1).length
      = acc.1.length + sessions.length := by
  induction sessions generalizing acc with
  | nil => simp
  | cons s ss ih =>
      rw [List.foldl_cons, ih (planPushStep acc s)]
      show (acc.1 ++ [_]).length + ss.length = _
      simp only [List.length_append, List.length_cons, List.length_nil,
        List.length_cons]
      omega

theorem planPushFold_mem (sessions : List PlanSession)
    (acc : List GEvent × Nat × Nat) (e : GEvent)
    (he : e ∈ (sessions.foldl planPushStep acc).1) :
    e ∈ acc.1 ∨ e.notionPageId = none := by
  induction sessions generalizing acc with
  | nil => exact Or.inl he
  | cons s ss ih =>
      rw [List.foldl_cons] at he
      rcases ih (planPushStep acc s) he with h2 | h2
      · have h3 : e ∈ acc.1 ++ [⟨acc.2.1, s.name, s.startMin,
            s.startMin + (((if (if s.durationMin = 0 then 60
              else s.durationMin) = 0 then 60
              else (if s.durationMin = 0 then 60 else s.durationMin))
              : Nat) : Int), none⟩] := h2
        rcases List.mem_append.mp h3 with h4 | h4
        · exact Or.inl h4
        · right
          rw [List.mem_singleton.mp h4]
      · exact Or.inr h2

/-- C7 counterexample: pushing the same plan session twice through
`push_plans_window` (which passes no external key) creates two calendar
events, and neither of them carries the session's Notion page ID in its
private extended properties — the claim fails on both counts at this
input. -/
theorem plan_push_no_key_duplicates :
    ((pushPlansWindow [⟨"pg1", "Seance CAP", 0, 60⟩]
        (pushPlansWindow [⟨"pg1", "Seance CAP", 0, 60⟩] [] 0).1 1).1).length
      = 2
    ∧ ((pushPlansWindow [⟨"pg1", "Seance CAP", 0, 60⟩]
        (pushPlansWindow [⟨"pg1", "Seance CAP", 0, 60⟩] [] 0).1 1).1).all
        (fun e => e.notionPageId == none) = true := by
  constructor <;> rfl

/-- C7 (amended): `push_sport_event` implements the keyed upsert — when a
non-empty external key is passed (`if external_key:` is Python truthiness),
the written event carries the Notion page ID in its private extended
properties, and pushing the same body with the same key again finds that
event in the ±2-day window and updates it instead of creating a second
one — but `push_plans_window` never passes the key: every event it creates
carries no Notion page ID, and each push of a session adds one event. -/
theorem calendar_upsert_amended :
    (∀ (cal : List GEvent) (b : EventBody) (k : String) (f1 f2 : Nat),
       k ≠ "" →
       (∃ e ∈ (pushSportEvent cal b (some k) f1).1, e.notionPageId = some k)
       ∧ ((pushSportEvent (pushSportEvent cal b (some k) f1).1 b
             (some k) f2).1).length
           = ((pushSportEvent cal b (some k) f1).1).length)
    ∧ (∀ (sessions : List PlanSession) (cal : List GEvent) (f : Nat),
       ((pushPlansWindow sessions cal f).1).length
           = cal.length + sessions.length
       ∧ ((pushPlansWindow sessions cal f).1).all
           (fun e => decide (e ∈ cal) || decide (e.notionPageId = none))
           = true) := by
  constructor
  · intro cal b k f1 f2 hkne
    obtain ⟨e, hmem, hk, hstart, hend⟩ :=
      pushSportEvent_some_key cal b k f1 hkne
    refine ⟨⟨e, hmem, hk⟩, ?_⟩
    refine pushSportEvent_existing_key_updates _ b k f2 hkne e hmem hk ?_ ?_
    · rw [hend]
      have : (0 : Int) < ((if b.durationMin = 0 then 60 else b.durationMin
          : Nat) : Int) + 2880 := by
        positivity
      omega
    · rw [hstart]
      have : (0 : Int) < ((if b.durationMin = 0 then 60 else b.durationMin
          : Nat) : Int) + 2880 := by
        positivity
      omega
  · intro sessions cal f
    refine ⟨planPushFold_length sessions (cal, f, 0), ?_⟩
    rw [List.all_eq_true]
    intro e he
    rcases planPushFold_mem sessions (cal, f, 0) e he with h2 | h2
    · simp [h2]
    · simp [h2]

/-- Witness for the amended C7 at a concrete non-empty key: the pushed
event carries the key, a re-push updates instead of duplicating, and a
keyless plan push adds one event. -/
theorem calendar_upsert_amended_witness :
    (∃ e ∈ (pushSportEvent [] ⟨"Seance", 0, 60⟩ (some "pg1") 0).1,
        e.notionPageId = some "pg1")
    ∧ ((pushSportEvent (pushSportEvent [] ⟨"Seance", 0, 60⟩ (some "pg1") 0).1
          ⟨"Seance", 0, 60⟩ (some "pg1") 1).1).length
        = ((pushSportEvent [] ⟨"Seance", 0, 60⟩ (some "pg1") 0).1).length
    ∧ ((pushPlansWindow [⟨"pg2", "Velo", 0, 30⟩] [] 0).1).length = 0 + 1 := by
  have h := calendar_upsert_amended
  have h1 := h.1 [] ⟨"Seance", 0, 60⟩ "pg1" 0 1 (by decide)
  have h2 := h.2 [⟨"pg2", "Velo", 0, 30⟩] [] 0
  exact ⟨h1.1, h1.2, h2.1⟩

theorem pyFalsy_iff (o : Option ℚ) :
    pyFalsy o = true ↔ (o = none ∨ o = some 0) := by
  cases o with
  | none => simp [pyFalsy]
  | some q => simp [pyFalsy]

/-- C5 counterexample: with a present-but-zero duration (0 seconds), all
required inputs present and `hr_max > hr_rest`, the TRIMP function still
returns `None` (Python truthiness treats 0 as falsy), so "returns null if
and only if `hr_max <= hr_rest` or a required input is missing" fails. -/
theorem trimp_zero_duration_counterexample :
    trimp_bannister (some 0) (some 150) (some 185) 60 "M" = none
    ∧ ¬((185 : ℚ) ≤ 60
        ∨ some (0 : ℚ) = none ∨ some (150 : ℚ) = none
        ∨ some (185 : ℚ) = none) := by
  constructor
  · rfl
  · intro h
    rcases h with h | h | h | h
    · norm_num at h
    · exact Option.noConfusion h
    · exact Option.noConfusion h
    · exact Option.noConfusion h

/-- C5 (amended): the TRIMP function returns `None` if and only if
`hr_max <= hr_rest` or any required input (duration, hr_avg, hr_max) is
missing **or zero** (Python falsiness); for all other inputs it returns a
number. -/
theorem trimp_none_iff (d a m : Option ℚ) (r : ℚ) (sex : String) :
    trimp_bannister d a m r sex = none
      ↔ (d = none ∨ d = some 0 ∨ a = none ∨ a = some 0
         ∨ m = none ∨ m = some 0 ∨ m.getD 0 ≤ r) := by
  rw [trimp_bannister]
  by_cases hc : (pyFalsy d || pyFalsy a || pyFalsy m
      || decide (m.getD 0 ≤ r)) = true
  · rw [if_pos hc]
    simp only [Bool.or_eq_true, pyFalsy_iff, decide_eq_true_eq] at hc
    constructor
    · intro _
      tauto
    · intro _
      rfl
  · rw [if_neg hc]
    simp only [Bool.or_eq_true, pyFalsy_iff, decide_eq_true_eq] at hc
    constructor
    · intro hsome
      exact Option.noConfusion hsome
    · intro hrhs
      exact absurd (by tauto) hc

theorem exp_bounds_13824 :
    (3.982 : ℝ) ≤ Real.exp 1.3824 ∧ Real.exp 1.3824 ≤ 3.985 := by
  have hx : |(0.3824 : ℝ)| ≤ 1 := by
    rw [abs_of_nonneg] <;> norm_num
  have hb := Real.exp_bound hx (n := 5) (by norm_num)
  rw [abs_sub_le_iff] at hb
  obtain ⟨hb1, hb2⟩ := hb
  simp only [Finset.sum_range_succ, Finset.sum_range_zero] at hb1 hb2
  norm_num [Nat.factorial] at hb1 hb2
  have habs : |(239 / 625 : ℝ)| = 239 / 625 := abs_of_nonneg (by norm_num)
  rw [habs] at hb1 hb2
  norm_num at hb1 hb2
  have hmul : Real.exp 1.3824 = Real.exp 1 * Real.exp (239 / 625) := by
    rw [← Real.exp_add]
    norm_num
  have he1lo := Real.exp_one_gt_d9
  have he1hi := Real.exp_one_lt_d9
  have hexpos : (0 : ℝ) < Real.exp (239 / 625) := Real.exp_pos _
  constructor
  · rw [hmul]
    nlinarith
  · rw [hmul]
    nlinarith

theorem round_trimp_value : round ((207.36 : ℝ) * Real.exp 1.3824) = 826 := by
  obtain ⟨hlo, hhi⟩ := exp_bounds_13824
  rw [round_eq, Int.floor_eq_iff]
  constructor
  · push_cast
    nlinarith
  · push_cast
    nlinarith

/-- C4: TRIMP formula — for positive duration and average heart rate, a
nonnegative resting heart rate and `hr_max > hr_rest`, the TRIMP function
returns `round((d/60) * hr_r * a * e^(b * hr_r), 1)` with
`hr_r = (hr_avg - hr_rest)/(hr_max - hr_rest)` and `(a, b)` = (0.64, 1.92)
for sex "M", (0.86, 1.67) for sex "F"; in particular at d=2700, hr_avg=150,
hr_max=185, hr_rest=60, sex="M" it returns 82.6. -/
theorem trimp_formula (d a m r : ℚ) (hd : 0 < d) (ha : 0 < a)
    (hr : 0 ≤ r) (hm : r < m) :
    (trimp_bannister (some d) (some a) (some m) r "M"
       = some (pyRound1 (((d : ℝ) / 60)
           * (((a : ℝ) - (r : ℝ)) / ((m : ℝ) - (r : ℝ))) * 0.64
           * Real.exp (1.92 * (((a : ℝ) - (r : ℝ)) / ((m : ℝ) - (r : ℝ))))))
     ∧ trimp_bannister (some d) (some a) (some m) r "F"
       = some (pyRound1 (((d : ℝ) / 60)
           * (((a : ℝ) - (r : ℝ)) / ((m : ℝ) - (r : ℝ))) * 0.86
           * Real.exp (1.67 * (((a : ℝ) - (r : ℝ)) / ((m : ℝ) - (r : ℝ)))))))
    ∧ trimp_bannister (some 2700) (some 150) (some 185) 60 "M"
       = some (82.6 : ℝ) := by
  have hguard : (pyFalsy (some d) || pyFalsy (some a) || pyFalsy (some m)
      || decide ((some m).getD 0 ≤ r)) = false := by
    have h1 : pyFalsy (some d) = false := by simp [pyFalsy, hd.ne']
    have h2 : pyFalsy (some a) = false := by simp [pyFalsy, ha.ne']
    have h3 : pyFalsy (some m) = false := by
      simp [pyFalsy, (lt_of_le_of_lt hr hm).ne']
    have h4 : decide ((some m).getD 0 ≤ r) = false := by
      simp only [Option.getD_some, decide_eq_false_iff_not]
      exact not_le.mpr hm
    rw [h1, h2, h3, h4]
    rfl
  have hM : pySexIsFemale "M" = false := by decide
  have hF : pySexIsFemale "F" = true := by decide
  refine ⟨⟨?_, ?_⟩, ?_⟩
  · rw [trimp_bannister, if_neg (by rw [hguard]; exact Bool.false_ne_true)]
    simp only [hM, Bool.false_eq_true, if_false, Option.getD_some]
    congr 1
  · rw [trimp_bannister, if_neg (by rw [hguard]; exact Bool.false_ne_true)]
    simp only [hF, if_true, Option.getD_some]
    congr 1
  · have hgc : (pyFalsy (some (2700 : ℚ)) || pyFalsy (some 150)
        || pyFalsy (some 185)
        || decide ((some (185 : ℚ)).getD 0 ≤ (60 : ℚ))) = false := by decide
    rw [trimp_bannister, if_neg (by rw [hgc]; exact Bool.false_ne_true)]
    simp only [hM, Bool.false_eq_true, if_false, Option.getD_some]
    have hr1 : pyRound1 (20.736 * Real.exp 1.3824) = 82.6 := by
      rw [pyRound1]
      have h10 : (10 : ℝ) * (20.736 * Real.exp 1.3824)
          = 207.36 * Real.exp 1.3824 := by ring
      rw [h10, round_trimp_value]
      norm_num
    rw [← hr1]
    congr 1
    congr 1
    have harg : (((1.92 : ℚ)) : ℝ)
        * (((((150 : ℚ)) : ℝ) - (((60 : ℚ)) : ℝ))
          / ((((185 : ℚ)) : ℝ) - (((60 : ℚ)) : ℝ))) = 1.3824 := by
      norm_num
    rw [harg]
    norm_num

/-- Witness for C4: the theorem instantiated at the spec's concrete inputs
d=2700s, hr_avg=150, hr_max=185, hr_rest=60, sex="M" yields 82.6. -/
theorem trimp_formula_witness :
    trimp_bannister (some 2700) (some 150) (some 185) 60 "M"
      = some (82.6 : ℝ) :=
  (trimp_formula 2700 150 185 60 (by norm_num) (by norm_num) (by norm_num)
    (by norm_num)).2

end Stravation
